import Mathlib

/-!
Verification of the lumier resource-registry, binding-resolver and
dev-orchestrator core against its natural-language specification.

The definitions below are a shallow embedding of the TypeScript source:
  * `packages/lumier/src/sdk/config.ts`  — registry, declaration functions,
    name validation (zod `ResourceNameSchema`),
  * the CLI entry (`loadConfig`),
  * `packages/lumier/src/cli/commands/dev.ts` — binding classification,
    port-map construction, Miniflare-config building, rebuild handlers,
  * `packages/lumier/src/cli/lib/build.ts` — missing-binding validation.

JavaScript values that flow through binding maps are modelled by `BVal`;
JavaScript errors by `JsErr` (`name` is the class name: "Error",
"LumierError", "ValidationError"; `code` is the LumierError code field).
-/

namespace Lumier

/-- A JavaScript error value: `name` is the constructor/class name
("Error" for a plain `new Error(...)`, "LumierError", "ValidationError"),
`code` the `LumierError.code` field (absent on plain errors). -/
structure JsErr where
  name : String
  code : Option String
  message : String
deriving DecidableEq, Repr

/-- A JSON-ish JavaScript value as it appears in binding maps. -/
inductive JVal where
  | jstr (s : String)
  | jnum (n : Int)
  | jbool (b : Bool)
  | jnull
deriving DecidableEq, Repr

/-- Model of `JSON.stringify` on the modelled value fragment (strings are assumed
not to need escaping, which holds for every value in this development). -/
def jsonStringify : JVal → String
  | .jstr s => "\"" ++ s ++ "\""
  | .jnum n => toString n
  | .jbool true => "true"
  | .jbool false => "false"
  | .jnull => "null"

/-- The `_ref` payload carried by resource reference/output objects.
Each declaration function populates the fields relevant to its kind;
absent fields model absent JS object properties. -/
structure RefObj where
  scriptName : Option String := none
  namespaceId : Option String := none
  id : Option String := none
  bucketName : Option String := none
  queueName : Option String := none
  indexName : Option String := none
  className : Option String := none
  dataset : Option String := none
  localConnectionString : Option String := none
  existing : Option Bool := none
  isSecret : Option Bool := none
deriving DecidableEq, Repr

/-- A binding-map value at runtime: a plain string, a resource
reference/output (an object with a `type` tag, a `name` and a `_ref`
payload), or a manually-typed binding descriptor (an object with a
`type` tag but no `_ref`). -/
inductive BVal where
  | str (s : String)
  | linkable (ty : String) (nm : String) (className : Option String) (ref : RefObj)
  | manual (ty : String) (value : JVal) (service : Option String)
deriving DecidableEq, Repr

/-- Function `isLinkableResource` from `cli/lib/utils.ts`: an object value with both
a `type` and a `_ref` property. -/
def isLinkableResource : BVal → Bool
  | .linkable _ _ _ _ => true
  | _ => false

-- ============================================================================
-- Name validation (sdk/config.ts : ResourceNameSchema, validateName)
-- ============================================================================

/-- The regex `/^[a-z][a-z0-9-]*$/i` of `ResourceNameSchema`: letter-led,
then only alphanumerics and hyphens (case-insensitive). -/
def namePatternOk (s : String) : Bool :=
  match s.data with
  | [] => false
  | c :: cs => c.isAlpha && cs.all (fun ch => ch.isAlpha || ch.isDigit || ch == '-')

/-- JavaScript `String.prototype.trim()` (as zod's `.trim()` transform
applies it): strip leading and trailing whitespace. -/
def jsTrim (s : String) : String :=
  String.mk (((s.data.dropWhile Char.isWhitespace).reverse.dropWhile
    Char.isWhitespace).reverse)

/-- Model of `ResourceNameSchema.safeParse`: zod applies `.trim()` first, then checks
`.min(1)`, `.max(63)` and the regex on the trimmed string, reporting the
first failing check's message. Returns the first issue message, if any. -/
def resourceNameCheck (nm : String) : Option String :=
  let t := jsTrim nm
  if t.length < 1 then some "Resource name cannot be empty"
  else if t.length > 63 then some "Resource name cannot exceed 63 characters"
  else if !namePatternOk t then
    some "Resource name must start with a letter and contain only alphanumeric characters and hyphens"
  else none

/-- Function `validateName` from `sdk/config.ts`: on a failed parse it throws a plain
`new Error` whose message names the resource kind, the given name, and the
violated rule. Returns the thrown error, if any. -/
def validateName (nm ty : String) : Option JsErr :=
  (resourceNameCheck nm).map
    (fun m => { name := "Error", code := none, message := ty ++ " \"" ++ nm ++ "\": " ++ m })

/-- Class `ValidationError` from `cli/lib/utils.ts` (class name "ValidationError",
code "VALIDATION_ERROR"); the CLI-side `validateResourceName` throws this,
but the SDK declaration functions do not use it. -/
def mkValidationError (message : String) : JsErr :=
  { name := "ValidationError", code := some "VALIDATION_ERROR", message := message }

/-- Function `validateResourceName` from `cli/lib/utils.ts` (for contrast with the
SDK-side `validateName`): same schema, but wraps the issue in a
`ValidationError`. -/
def validateResourceName (nm ty : String) : Option JsErr :=
  (resourceNameCheck nm).map (fun m => mkValidationError (ty ++ " name \"" ++ nm ++ "\": " ++ m))

-- ============================================================================
-- Registry (sdk/config.ts)
-- ============================================================================

/-- Field `registry.app`: app metadata plus the current stage
(`registry.app = { ...appConfig, stage }`). -/
structure AppMeta where
  name : String
  protect : Option (List String)
  removal : Option String
  stage : String
deriving DecidableEq, Repr

/-- Options of a declared Worker that the dev orchestrator reads:
entry path and the binding map (values already resolved to runtime
binding values). -/
structure WorkerOpts where
  entry : String
  bindings : List (String × BVal)
deriving DecidableEq, Repr

/-- Options of a declared Durable Object namespace: the class name and the
owning worker's fully-qualified script name (`options.worker._ref.scriptName`). -/
structure DOOpts where
  className : String
  workerScript : String
deriving DecidableEq, Repr

/-- Options of a declared cron trigger: target worker's script name
(`options.worker._ref.scriptName`) and the schedule expression. -/
structure CronOpts where
  workerScript : String
  schedule : String
deriving DecidableEq, Repr

/-- Options of a declared Hyperdrive: the optional local connection string. -/
structure HyperOpts where
  localConnectionString : Option String
deriving DecidableEq, Repr

/-- Structure `ResourceRegistry` from `sdk/types.ts`: app metadata, one ordered
sequence per resource kind, and the run outputs. Kinds whose options the
modelled core never reads are kept as name sequences. -/
structure Registry where
  app : AppMeta
  workers : List (String × WorkerOpts)
  buckets : List String
  kvs : List String
  d1s : List String
  queues : List String
  vectorizes : List String
  durableObjects : List (String × DOOpts)
  crons : List (String × CronOpts)
  staticSites : List String
  hyperdrives : List (String × HyperOpts)
  analyticsEngines : List String
  outputs : List (String × String)
deriving DecidableEq, Repr

/-- Function `createEmptyRegistry()` from `sdk/config.ts`. -/
def createEmptyRegistry : Registry :=
  { app := { name := "", protect := none, removal := none, stage := "" }
    workers := [], buckets := [], kvs := [], d1s := [], queues := []
    vectorizes := [], durableObjects := [], crons := [], staticSites := []
    hyperdrives := [], analyticsEngines := [], outputs := [] }

/-- Function `clearRegistry()` from `sdk/config.ts`: reassigns every field of the
process-wide registry to its empty default (`registry.app = {name:"",stage:""}`
drops `protect`/`removal`). -/
def clearRegistry (r : Registry) : Registry :=
  { r with
    app := { name := "", protect := none, removal := none, stage := "" }
    workers := [], buckets := [], kvs := [], d1s := [], queues := []
    vectorizes := [], durableObjects := [], crons := [], staticSites := []
    hyperdrives := [], analyticsEngines := [], outputs := [] }

-- ============================================================================
-- Synthesized reference identifiers (pure functions of app/stage/name)
-- ============================================================================

/-- Script name synthesized by `Worker()`:
`app-stage-name` when a stage is set, else `app-name`. -/
def mkScriptName (app : AppMeta) (nm : String) : String :=
  if app.stage ≠ "" then app.name ++ "-" ++ app.stage ++ "-" ++ nm
  else app.name ++ "-" ++ nm

/-- Namespace id synthesized by `KV()`: `kv-<name>`. -/
def mkKVNamespaceId (nm : String) : String := "kv-" ++ nm

/-- Database id synthesized by `D1()`: `d1-<name>`. -/
def mkD1Id (nm : String) : String := "d1-" ++ nm

/-- Config id synthesized by `Hyperdrive()`: `hyperdrive-<name>`. -/
def mkHyperdriveId (nm : String) : String := "hyperdrive-" ++ nm

-- ============================================================================
-- Configuration programs (the user's run callback, as data)
-- ============================================================================

/-- A binding-map entry as written in the configuration source: either a
literal string, a reference returned by an earlier declaration (identified
by kind and resource name), or a manually-typed descriptor. -/
inductive BSpec where
  | str (s : String)
  | kvRef (n : String)
  | bucketRef (n : String)
  | d1Ref (n : String)
  | queueRef (n : String)
  | vectorizeRef (n : String)
  | workerRef (n : String)
  | doRef (n : String) (className : String) (workerName : String)
  | hyperdriveRef (n : String) (conn : Option String)
  | analyticsRef (n : String)
  | secretRef (n : String)
  | manual (ty : String) (value : JVal) (service : Option String)
deriving DecidableEq, Repr

/-- Resolve a configuration-source binding entry to the runtime value the
corresponding declaration function returned (its output object).
Mirrors the `return` values of the declaration functions in
`sdk/config.ts`; worker script names depend on the app metadata in effect
during the run. -/
def resolveBSpec (app : AppMeta) : BSpec → BVal
  | .str s => .str s
  | .kvRef n => .linkable "kv" n none { namespaceId := some (mkKVNamespaceId n) }
  | .bucketRef n => .linkable "bucket" n none { bucketName := some n }
  | .d1Ref n => .linkable "d1" n none { id := some (mkD1Id n) }
  | .queueRef n => .linkable "queue" n none { queueName := some n }
  | .vectorizeRef n => .linkable "vectorize" n none { indexName := some n }
  | .workerRef n => .linkable "worker" n none { scriptName := some (mkScriptName app n) }
  | .doRef n c w =>
      .linkable "durable_object" n (some c)
        { className := some c, scriptName := some (mkScriptName app w) }
  | .hyperdriveRef n conn =>
      .linkable "hyperdrive" n none
        { id := some (mkHyperdriveId n), localConnectionString := conn }
  | .analyticsRef n => .linkable "analytics_engine" n none { dataset := some n }
  | .secretRef n => .linkable "secret" n none { isSecret := some true }
  | .manual t v s => .manual t v s

/-- One declaration-function call in the user's `run` callback. -/
inductive Decl where
  | worker (nm entry : String) (bindings : List (String × BSpec))
  | bucket (nm : String)
  | kv (nm : String)
  | d1 (nm : String)
  | queue (nm : String)
  | vectorize (nm : String)
  | durableObject (nm className workerName : String)
  | cron (nm schedule workerName : String)
  | staticSite (nm : String)
  | hyperdrive (nm : String) (conn : Option String)
  | analyticsEngine (nm : String)
  | d1Existing (nm rid : String)
  | kvExisting (nm rid : String)
  | bucketExisting (nm bucketName : String)
  | queueExisting (nm queueName : String)
  | vectorizeExisting (nm indexName : String)
  | hyperdriveExisting (nm rid : String)
deriving DecidableEq, Repr

/-- The `name` argument of the declaration call. -/
def Decl.declName : Decl → String
  | .worker nm _ _ => nm
  | .bucket nm => nm
  | .kv nm => nm
  | .d1 nm => nm
  | .queue nm => nm
  | .vectorize nm => nm
  | .durableObject nm _ _ => nm
  | .cron nm _ _ => nm
  | .staticSite nm => nm
  | .hyperdrive nm _ => nm
  | .analyticsEngine nm => nm
  | .d1Existing nm _ => nm
  | .kvExisting nm _ => nm
  | .bucketExisting nm _ => nm
  | .queueExisting nm _ => nm
  | .vectorizeExisting nm _ => nm
  | .hyperdriveExisting nm _ => nm

/-- The `type` string each declaration function passes to `validateName`. -/
def Decl.declKind : Decl → String
  | .worker _ _ _ => "Worker"
  | .bucket _ => "Bucket"
  | .kv _ => "KV"
  | .d1 _ => "D1"
  | .queue _ => "Queue"
  | .vectorize _ => "Vectorize"
  | .durableObject _ _ _ => "DurableObject"
  | .cron _ _ _ => "Cron"
  | .staticSite _ => "StaticSite"
  | .hyperdrive _ _ => "Hyperdrive"
  | .analyticsEngine _ => "AnalyticsEngine"
  | .d1Existing _ _ => "D1.existing"
  | .kvExisting _ _ => "KV.existing"
  | .bucketExisting _ _ => "Bucket.existing"
  | .queueExisting _ _ => "Queue.existing"
  | .vectorizeExisting _ _ => "Vectorize.existing"
  | .hyperdriveExisting _ _ => "Hyperdrive.existing"

/-- Whether the declaration is an `.existing(...)` variant (those skip the
registry-sequence append). -/
def Decl.isExisting : Decl → Bool
  | .d1Existing _ _ => true
  | .kvExisting _ _ => true
  | .bucketExisting _ _ => true
  | .queueExisting _ _ => true
  | .vectorizeExisting _ _ => true
  | .hyperdriveExisting _ _ => true
  | _ => false

/-- The registry mutation a declaration function performs after its name
validation succeeded: append `{name, options}` to the kind's sequence
(`.existing` variants append nothing). -/
def applyDecl (reg : Registry) : Decl → Registry
  | .worker nm entry binds =>
      { reg with workers := reg.workers ++
          [(nm, { entry := entry,
                  bindings := binds.map (fun kv => (kv.1, resolveBSpec reg.app kv.2)) })] }
  | .bucket nm => { reg with buckets := reg.buckets ++ [nm] }
  | .kv nm => { reg with kvs := reg.kvs ++ [nm] }
  | .d1 nm => { reg with d1s := reg.d1s ++ [nm] }
  | .queue nm => { reg with queues := reg.queues ++ [nm] }
  | .vectorize nm => { reg with vectorizes := reg.vectorizes ++ [nm] }
  | .durableObject nm c w =>
      { reg with durableObjects := reg.durableObjects ++
          [(nm, { className := c, workerScript := mkScriptName reg.app w })] }
  | .cron nm sched w =>
      { reg with crons := reg.crons ++
          [(nm, { workerScript := mkScriptName reg.app w, schedule := sched })] }
  | .staticSite nm => { reg with staticSites := reg.staticSites ++ [nm] }
  | .hyperdrive nm conn =>
      { reg with hyperdrives := reg.hyperdrives ++ [(nm, { localConnectionString := conn })] }
  | .analyticsEngine nm => { reg with analyticsEngines := reg.analyticsEngines ++ [nm] }
  | .d1Existing _ _ => reg
  | .kvExisting _ _ => reg
  | .bucketExisting _ _ => reg
  | .queueExisting _ _ => reg
  | .vectorizeExisting _ _ => reg
  | .hyperdriveExisting _ _ => reg

/-- One declaration-function call: validate the name first (throwing leaves
the registry untouched), then perform the registry append. The returned
pair is (registry after the call, thrown error if any). -/
def interpDecl (reg : Registry) (d : Decl) : Registry × Option JsErr :=
  match validateName d.declName d.declKind with
  | some e => (reg, some e)
  | none => (applyDecl reg d, none)

/-- Run the declarations of the user's `run` callback in order; a thrown
error aborts the remaining declarations (the exception propagates). -/
def runDecls (reg : Registry) : List Decl → Registry × Option JsErr
  | [] => (reg, none)
  | d :: ds =>
      match interpDecl reg d with
      | (r, some e) => (r, some e)
      | (r, none) => runDecls r ds

/-- The user's configuration module, as data: the `app()` metadata and the
`run(ctx)` callback (declarations and outputs may depend on the stage
through `ctx`). -/
structure ConfigProgram where
  appName : String
  protect : Option (List String) := none
  removal : Option String := none
  decls : String → List Decl
  outputs : String → List (String × String) := fun _ => []

/-- Function `loadConfig(stage)` from the CLI entry: clear the registry, set
`registry.app = { ...appConfig, stage }`, run the declarations, then store
the run outputs. A throw during `run` propagates with the registry as it
stood at the throw. -/
def loadConfig (r : Registry) (p : ConfigProgram) (stage : String) : Registry × Option JsErr :=
  let r0 := clearRegistry r
  let r1 := { r0 with
    app := { name := p.appName, protect := p.protect, removal := p.removal, stage := stage } }
  match runDecls r1 (p.decls stage) with
  | (r2, some e) => (r2, some e)
  | (r2, none) => ({ r2 with outputs := p.outputs stage }, none)

-- ============================================================================
-- Binding resolver (cli/commands/dev.ts : BindingCollections, processBindings)
-- ============================================================================

/-- A durable-object binding entry in the dev collections. -/
structure DOBinding where
  className : String
  useSQLite : Bool
deriving DecidableEq, Repr

/-- The warning printed when a Hyperdrive binding has no local connection
string. -/
def hyperdriveWarning (key : String) : String :=
  "Warning: Hyperdrive binding \"" ++ key ++
    "\" missing localConnectionString - binding skipped in dev"

/-- Structure `BindingCollections` from `dev.ts`, plus the `console.warn` lines the
processors emit. `textBindings` values are kept as raw JS values, exactly
as the record assignments store them. -/
structure DevBindings where
  textBindings : List (String × JVal) := []
  kvNamespaces : List (String × String) := []
  r2Buckets : List (String × String) := []
  d1Databases : List (String × String) := []
  queueProducers : List (String × String) := []
  durableObjects : List (String × DOBinding) := []
  serviceBindingTargets : List (String × String) := []
  hyperdrives : List (String × String) := []
  warnings : List String := []
deriving DecidableEq, Repr

/-- Function `createEmptyCollections()` from `dev.ts`. -/
def createEmptyCollections : DevBindings := {}

/-- Function `processLinkableBinding` from `dev.ts`: route a resource reference by
its `type` tag into the matching backend collection; a Hyperdrive
reference without a local connection string is skipped with a warning;
any other unrecognized tag falls through silently. -/
def processLinkableBinding (key ty nm : String) (className : Option String)
    (ref : RefObj) (c : DevBindings) : DevBindings :=
  if ty == "kv" then
    { c with kvNamespaces := c.kvNamespaces ++ [(key, "kv-" ++ nm)] }
  else if ty == "bucket" then
    { c with r2Buckets := c.r2Buckets ++ [(key, nm)] }
  else if ty == "d1" then
    { c with d1Databases := c.d1Databases ++ [(key, "d1-" ++ nm)] }
  else if ty == "queue" then
    { c with queueProducers := c.queueProducers ++ [(key, nm)] }
  else if ty == "durable_object" then
    { c with durableObjects := c.durableObjects ++
        [(key, { className := className.getD "", useSQLite := true })] }
  else if ty == "worker" then
    { c with serviceBindingTargets := c.serviceBindingTargets ++
        [(key, ref.scriptName.getD "")] }
  else if ty == "hyperdrive" then
    match ref.localConnectionString with
    | some cs => { c with hyperdrives := c.hyperdrives ++ [(key, cs)] }
    | none => { c with warnings := c.warnings ++ [hyperdriveWarning key] }
  else c

/-- Function `processManualBinding` from `dev.ts`: plain/secret text kept as the raw
value, `json` stringified, `service` routed to service-binding targets when
`value.service` is truthy; any other tag falls through silently. -/
def processManualBinding (key ty : String) (value : JVal) (service : Option String)
    (c : DevBindings) : DevBindings :=
  if ty == "plain_text" || ty == "secret_text" then
    { c with textBindings := c.textBindings ++ [(key, value)] }
  else if ty == "json" then
    { c with textBindings := c.textBindings ++ [(key, .jstr (jsonStringify value))] }
  else if ty == "service" then
    match service with
    | some s =>
        if s.isEmpty then c
        else { c with serviceBindingTargets := c.serviceBindingTargets ++ [(key, s)] }
    | none => c
  else c

/-- The loop body of `processBindings`: strings become text bindings,
linkable resources (objects with `_ref`) go through
`processLinkableBinding`, objects with a `type` but no `_ref` through
`processManualBinding`. -/
def processBindingEntry (c : DevBindings) (kv : String × BVal) : DevBindings :=
  match kv.2 with
  | .str s => { c with textBindings := c.textBindings ++ [(kv.1, .jstr s)] }
  | .linkable ty nm cn ref => processLinkableBinding kv.1 ty nm cn ref c
  | .manual ty v svc => processManualBinding kv.1 ty v svc c

/-- Function `processBindings` from `dev.ts`. -/
def processBindings (bs : List (String × BVal)) : DevBindings :=
  bs.foldl processBindingEntry createEmptyCollections

-- ============================================================================
-- Port map and Miniflare configuration (cli/commands/dev.ts)
-- ============================================================================

/-- Operation `Map.set` of a JS `Map<string, number>`: overwrite in place if the key
exists, else append (insertion order preserved). -/
def mapSet (m : List (String × Nat)) (k : String) (v : Nat) : List (String × Nat) :=
  if m.any (fun kv => kv.1 == k) then
    m.map (fun kv => if kv.1 == k then (k, v) else kv)
  else m ++ [(k, v)]

/-- The port-assignment loop: `for worker: map.set(name, currentPort++)`. -/
def buildPortMapGo (m : List (String × Nat)) (p : Nat) : List String → List (String × Nat)
  | [] => m
  | w :: ws => buildPortMapGo (mapSet m w p) (p + 1) ws

/-- Sequential port allocation starting at the base port, one port per
worker in declaration order. -/
def buildPortMap (ws : List String) (basePort : Nat) : List (String × Nat) :=
  buildPortMapGo [] basePort ws

/-- Operation `Map.set` of the JS `Map<string, string[]>` used for crons: read the
existing list (or `[]`), push, store back. -/
def cronMapAdd (m : List (String × List String)) (k v : String) :
    List (String × List String) :=
  if m.any (fun kv => kv.1 == k) then
    m.map (fun kv => if kv.1 == k then (k, kv.2 ++ [v]) else kv)
  else m ++ [(k, [v])]

/-- Function `buildCronsByWorker` from `dev.ts`: group cron schedules keyed by
`cronEntry.options.worker._ref.scriptName`. -/
def buildCronsByWorker (reg : Registry) : List (String × List String) :=
  reg.crons.foldl (fun m ce => cronMapAdd m ce.2.workerScript ce.2.schedule) []

/-- The service-binding construction loop of `buildMiniflareConfig`: for
each recorded target, look its name up in the worker port map; when a
(truthy) port is found, register a dispatch entry carrying the target
port the closure forwards to. -/
def buildServiceBindings (targets : List (String × String))
    (portMap : List (String × Nat)) : List (String × Nat) :=
  targets.foldl
    (fun acc t =>
      match portMap.lookup t.2 with
      | some p => if p == 0 then acc else acc ++ [(t.1, p)]
      | none => acc)
    []

/-- An in-flight request, as seen by a service-binding dispatch closure. -/
structure RequestModel where
  host : String
  path : String
  method : String
  body : String
deriving DecidableEq, Repr

/-- The dispatch closure built for a resolved service binding: rewrite the
URL host to `localhost:<targetPort>` and re-issue the request with the
same method and body. -/
def forwardRequest (targetPort : Nat) (r : RequestModel) : RequestModel :=
  { r with host := "localhost:" ++ toString targetPort }

/-- The fields of the per-worker Miniflare configuration that the modelled
core computes (name, port, classified binding collections, resolved
service-binding dispatch targets, cron expressions). -/
structure MfWorkerConfig where
  fullName : String
  port : Nat
  bindings : DevBindings
  serviceBindings : List (String × Nat)
  crons : List String
deriving DecidableEq, Repr

/-- Function `buildMiniflareConfig` from `dev.ts` (the modelled fields): synthesize
the fully-qualified instance name, classify the worker's bindings, resolve
service-binding targets against the worker port map, and attach the
worker's crons. -/
def buildMiniflareConfig (w : String × WorkerOpts) (reg : Registry) (port : Nat)
    (stage : String) (cronsByWorker : List (String × List String))
    (workerPortMap : List (String × Nat)) : MfWorkerConfig :=
  let fullName := reg.app.name ++ "-" ++ stage ++ "-" ++ w.1
  let collections := processBindings w.2.bindings
  { fullName := fullName
    port := port
    bindings := collections
    serviceBindings := buildServiceBindings collections.serviceBindingTargets workerPortMap
    crons := (cronsByWorker.lookup w.1).getD [] }

/-- The worker filter applied when `--worker <name>` was passed. -/
def filteredWorkers (fw : Option String) (reg : Registry) : List (String × WorkerOpts) :=
  match fw with
  | some n => reg.workers.filter (fun w => w.1 == n)
  | none => reg.workers

/-- The startup sequence of `dev()` after build: filter workers, build the
port map first, then construct every Miniflare configuration against that
map. Fails with the `NO_WORKERS` `LumierError` when no worker matches. -/
def devStartup (reg : Registry) (fw : Option String) (basePort : Nat)
    (stage : String) : Except JsErr (List (String × Nat) × List MfWorkerConfig) :=
  let workers := filteredWorkers fw reg
  if workers.isEmpty then
    .error { name := "LumierError", code := some "NO_WORKERS", message := "No workers found" }
  else
    let portMap := buildPortMap (workers.map (fun w => w.1)) basePort
    let cbw := buildCronsByWorker reg
    .ok (portMap,
      workers.map (fun w =>
        buildMiniflareConfig w reg ((portMap.lookup w.1).getD 0) stage cbw portMap))

-- ============================================================================
-- Build-time binding-coverage validation (cli/lib/build.ts)
-- ============================================================================

/-- The `usedBindings` set: env-access keys collected from the bundled
artifact in first-occurrence order (a JS `Set` built by repeated `add`). -/
def dedupKeys (l : List String) : List String :=
  l.foldl (fun acc k => if acc.contains k then acc else acc ++ [k]) []

/-- Model of the JS `join` with separator comma-space. -/
def joinComma : List String → String
  | [] => ""
  | [x] => x
  | x :: xs => x ++ ", " ++ joinComma xs

/-- The missing-binding check inside `build()` for one worker: every env
key the compiled artifact accesses must have an entry in the declared
binding map; a violation throws the `MISSING_BINDINGS` `LumierError`
naming the worker and every missing key. `accesses` is the list of env
keys the bundled code references (the `ENV_ACCESS_PATTERN` matches). -/
def checkWorkerBindings (nm : String) (accesses : List String)
    (bindings : List (String × BVal)) : Option JsErr :=
  let configured := bindings.map (fun kv => kv.1)
  let usedBindings := dedupKeys accesses
  let missing := usedBindings.filter (fun b => !configured.contains b)
  if missing.isEmpty then none
  else some
    { name := "LumierError", code := some "MISSING_BINDINGS"
      message := "Worker \"" ++ nm ++ "\" uses bindings that are not configured: " ++
        joinComma missing ++ "\nAdd them to the worker's bindings in lumier.config.ts" }

/-- The per-worker loop of `build()` (its binding-validation part): the
first worker whose artifact uses an unconfigured binding makes the build
throw. `artifactAccesses` gives, per worker name, the env keys its
compiled artifact references. -/
def buildValidate (workers : List (String × WorkerOpts))
    (artifactAccesses : String → List String) : Option JsErr :=
  match workers with
  | [] => none
  | w :: ws =>
      match checkWorkerBindings w.1 (artifactAccesses w.1) w.2.bindings with
      | some e => some e
      | none => buildValidate ws artifactAccesses

-- ============================================================================
-- Rebuild handlers and watcher reentrancy guard (cli/commands/dev.ts)
-- ============================================================================

/-- A tracked Miniflare instance: `{name, port}` (the handle is modelled by
the events issued against it). -/
structure InstanceRec where
  name : String
  port : Nat
deriving DecidableEq, Repr

/-- An operation issued against the set of live emulator instances. -/
inductive OrchEvent where
  | dispose (nm : String)
  | create (nm : String) (port : Nat)
  | setOptions (nm : String) (port : Nat)
deriving DecidableEq, Repr

/-- Result of one watcher-handler invocation: the live-instance list after
the handler, the instance operations it performed, and its log lines. -/
structure OrchResult where
  instances : List InstanceRec
  events : List OrchEvent
  logs : List String
deriving DecidableEq, Repr

/-- Log line `x error ...` emitted on the catch path of a rebuild handler. -/
def errorLog (e : JsErr) : String := "x error " ++ e.message

/-- Function `handleRebuild` from `dev.ts` (triggered by the general source watcher):
reload + rebuild; on success push the new configuration into each still-
present instance in place (same port, no dispose); on failure log and keep
every instance untouched. `outcome` is the result of
`loadConfig(); build(...)`. The handler never throws: it always returns a
result. -/
def handleRebuildModel (filename : String) (instances : List InstanceRec)
    (outcome : Except JsErr Registry) : OrchResult :=
  match outcome with
  | .error e => { instances := instances, events := [], logs := ["~ rebuild " ++ filename, errorLog e] }
  | .ok cfg =>
      { instances := instances
        events := instances.filterMap (fun i =>
          if cfg.workers.any (fun w => w.1 == i.name) then some (.setOptions i.name i.port)
          else none)
        logs := ["~ rebuild " ++ filename, "+ reload Workers updated"] }

/-- The `lumier.config.ts` watcher handler from `dev.ts`: reload + regen +
rebuild; diff the new (filtered) worker name set against the running
instance names; on any addition or removal dispose all instances and
cold-start the full new set with a fresh sequential port map from the base
port; otherwise hot-update each instance in place. On failure log and keep
every instance untouched. -/
def configWatcherModel (instances : List InstanceRec) (fw : Option String)
    (basePort : Nat) (outcome : Except JsErr Registry) : OrchResult :=
  match outcome with
  | .error e =>
      { instances := instances, events := []
        logs := ["~ config lumier.config changed", errorLog e] }
  | .ok cfg =>
      let workers := filteredWorkers fw cfg
      let currentNames := instances.map (fun i => i.name)
      let newNames := workers.map (fun w => w.1)
      let addedWorkers := workers.filter (fun w => !currentNames.contains w.1)
      let removedWorkers := instances.filter (fun i => !newNames.contains i.name)
      if addedWorkers.length > 0 ∨ removedWorkers.length > 0 then
        let newPortMap := buildPortMap newNames basePort
        let newInstances := newNames.map (fun n =>
          { name := n, port := (newPortMap.lookup n).getD 0 : InstanceRec })
        { instances := newInstances
          events := instances.map (fun i => .dispose i.name) ++
            newInstances.map (fun i => .create i.name i.port)
          logs := ["~ config lumier.config changed", "~ restart Workers changed, restarting..."] }
      else
        { instances := instances
          events := instances.filterMap (fun i =>
            if workers.any (fun w => w.1 == i.name) then some (.setOptions i.name i.port)
            else none)
          logs := ["~ config lumier.config changed", "+ reload Config updated"] }

/-- The shared `isRebuilding` reentrancy flag plus ghost bookkeeping:
`active` counts rebuild bodies currently executing, `rebuilds` counts
rebuilds ever started. -/
structure WatchState where
  inFlight : Bool
  active : Nat
  rebuilds : Nat
deriving DecidableEq, Repr

/-- A watcher notification (general source watcher or configuration
watcher) or the completion of the in-flight rebuild body. -/
inductive WatchEvent where
  | fileChange
  | configChange
  | rebuildDone
deriving DecidableEq, Repr

/-- The guard at the top of both handlers: a change notification arriving
while `isRebuilding` is set returns immediately (dropped, not queued);
otherwise the flag is set and a rebuild body starts. Completion clears the
flag. -/
def watchStep (s : WatchState) : WatchEvent → WatchState
  | .fileChange =>
      if s.inFlight then s
      else { inFlight := true, active := s.active + 1, rebuilds := s.rebuilds + 1 }
  | .configChange =>
      if s.inFlight then s
      else { inFlight := true, active := s.active + 1, rebuilds := s.rebuilds + 1 }
  | .rebuildDone => { inFlight := false, active := s.active - 1, rebuilds := s.rebuilds }

/-- Initial watcher state: no rebuild in flight. -/
def watchInit : WatchState := { inFlight := false, active := 0, rebuilds := 0 }

/-- Process a sequence of watcher events from the initial state. -/
def runWatch (evs : List WatchEvent) : WatchState :=
  evs.foldl watchStep watchInit

/-- Substring containment: `sub` occurs contiguously inside `s`. -/
def ContainsStr (s sub : String) : Prop := ∃ pre post, s = pre ++ sub ++ post

-- ============================================================================
-- Specification-side binding dispatch (for the refinement claim C3)
-- ============================================================================

/-- The dispatch rule as the specification words it: a string value is
always plain text; a value with both a `type` tag and a `_ref` payload is
a resource reference routed by its `type` tag into the matching backend
collection (a namespace-store reference with resource name `n` yields the
namespace binding `kv-n`, a bucket its bucket name, a database `d1-n`, a
queue its queue name, an actor namespace its class name, a sibling worker
its script-name target, a connection pool its local connection string or a
warning); a value with a `type` tag but no `_ref` is a manually-typed
descriptor (plain/secret text kept as text, JSON stringified, service
routed to service-binding targets by service name); a `type` tag the dev
emulator does not support contributes to no collection. -/
def specDispatch (key : String) : BVal → DevBindings
  | .str s => { textBindings := [(key, .jstr s)] }
  | .linkable ty nm cn ref =>
      if ty == "kv" then { kvNamespaces := [(key, "kv-" ++ nm)] }
      else if ty == "bucket" then { r2Buckets := [(key, nm)] }
      else if ty == "d1" then { d1Databases := [(key, "d1-" ++ nm)] }
      else if ty == "queue" then { queueProducers := [(key, nm)] }
      else if ty == "durable_object" then
        { durableObjects := [(key, { className := cn.getD "", useSQLite := true })] }
      else if ty == "worker" then
        { serviceBindingTargets := [(key, ref.scriptName.getD "")] }
      else if ty == "hyperdrive" then
        match ref.localConnectionString with
        | some cs => { hyperdrives := [(key, cs)] }
        | none => { warnings := [hyperdriveWarning key] }
      else {}
  | .manual ty v svc =>
      if ty == "plain_text" || ty == "secret_text" then { textBindings := [(key, v)] }
      else if ty == "json" then { textBindings := [(key, .jstr (jsonStringify v))] }
      else if ty == "service" then
        match svc with
        | some s => if s.isEmpty then {} else { serviceBindingTargets := [(key, s)] }
        | none => {}
      else {}

/-- Field-wise union of two binding-collection records. -/
def mergeDB (a b : DevBindings) : DevBindings :=
  { textBindings := a.textBindings ++ b.textBindings
    kvNamespaces := a.kvNamespaces ++ b.kvNamespaces
    r2Buckets := a.r2Buckets ++ b.r2Buckets
    d1Databases := a.d1Databases ++ b.d1Databases
    queueProducers := a.queueProducers ++ b.queueProducers
    durableObjects := a.durableObjects ++ b.durableObjects
    serviceBindingTargets := a.serviceBindingTargets ++ b.serviceBindingTargets
    hyperdrives := a.hyperdrives ++ b.hyperdrives
    warnings := a.warnings ++ b.warnings }

lemma mergeDB_empty_left (d : DevBindings) : mergeDB createEmptyCollections d = d := by
  simp [mergeDB, createEmptyCollections]

lemma processBindingEntry_eq_merge (c : DevBindings) (kv : String × BVal) :
    processBindingEntry c kv = mergeDB c (specDispatch kv.1 kv.2) := by
  obtain ⟨k, v⟩ := kv
  cases v with
  | str s => simp [processBindingEntry, specDispatch, mergeDB]
  | linkable ty nm cn ref =>
      simp only [processBindingEntry, processLinkableBinding, specDispatch]
      split_ifs <;> cases ref.localConnectionString <;> simp [mergeDB, createEmptyCollections]
  | manual ty v svc =>
      simp only [processBindingEntry, processManualBinding, specDispatch]
      split_ifs with h1 h2 h3
      · simp [mergeDB]
      · simp [mergeDB]
      · cases svc with
        | none => simp [mergeDB, createEmptyCollections]
        | some s =>
            cases hs : s.isEmpty <;> simp [hs, mergeDB, createEmptyCollections]
      · simp [mergeDB, createEmptyCollections]

lemma processBindings_foldl_merge (bs : List (String × BVal)) :
    ∀ c : DevBindings,
      bs.foldl processBindingEntry c =
        bs.foldl (fun a kv => mergeDB a (specDispatch kv.1 kv.2)) c := by
  induction bs with
  | nil => intro c; rfl
  | cons kv bs ih =>
      intro c
      simp only [List.foldl_cons, processBindingEntry_eq_merge]
      exact ih _

-- ============================================================================
-- Helper lemmas (strings, dedup, port map, watcher invariant)
-- ============================================================================

lemma containsStr_of_append_left {t sub : String} (s : String) :
    ContainsStr t sub → ContainsStr (s ++ t) sub := by
  rintro ⟨pre, post, rfl⟩
  exact ⟨s ++ pre, post, by simp [String.append_assoc]⟩

lemma containsStr_of_append_right {s sub : String} (t : String) :
    ContainsStr s sub → ContainsStr (s ++ t) sub := by
  rintro ⟨pre, post, rfl⟩
  exact ⟨pre, post ++ t, by simp [String.append_assoc]⟩

lemma containsStr_self (s : String) : ContainsStr s s :=
  ⟨"", "", by rw [String.empty_append, String.append_empty]⟩

lemma containsStr_mid (pre sub post : String) : ContainsStr (pre ++ sub ++ post) sub :=
  ⟨pre, post, rfl⟩

lemma joinComma_contains : ∀ (l : List String) (k : String), k ∈ l →
    ContainsStr (joinComma l) k := by
  intro l
  induction l with
  | nil => intro k hk; cases hk
  | cons x xs ih =>
      intro k hk
      cases xs with
      | nil =>
          rcases hk with _ | ⟨_, h⟩
          · exact containsStr_self x
          · cases h
      | cons y ys =>
          rcases hk with _ | ⟨_, h⟩
          · exact containsStr_of_append_right _
              (containsStr_of_append_right _ (containsStr_self x))
          · exact containsStr_of_append_left _ (ih k h)

lemma dedupKeys_go_mem (l : List String) :
    ∀ (acc : List String) (k : String),
      k ∈ l.foldl (fun acc k => if acc.contains k then acc else acc ++ [k]) acc ↔
        k ∈ acc ∨ k ∈ l := by
  induction l with
  | nil => intro acc k; simp
  | cons x xs ih =>
      intro acc k
      simp only [List.foldl_cons]
      by_cases hx : acc.contains x = true
      · rw [if_pos hx, ih]
        have hxa : x ∈ acc := by simpa using hx
        constructor
        · rintro (h | h)
          · exact Or.inl h
          · exact Or.inr (List.mem_cons_of_mem _ h)
        · rintro (h | h)
          · exact Or.inl h
          · rcases List.mem_cons.mp h with rfl | h2
            · exact Or.inl hxa
            · exact Or.inr h2
      · rw [if_neg hx, ih]
        simp [List.mem_append, List.mem_cons, or_assoc]

lemma dedupKeys_mem (l : List String) (k : String) : k ∈ dedupKeys l ↔ k ∈ l := by
  rw [dedupKeys, dedupKeys_go_mem]
  simp

lemma buildPortMapGo_eq (ws : List String) :
    ∀ (m : List (String × Nat)) (p : Nat),
      ws.Nodup → (∀ kv ∈ m, kv.1 ∉ ws) →
      buildPortMapGo m p ws = m ++ buildPortMapGo [] p ws := by
  induction ws with
  | nil => intro m p _ _; simp [buildPortMapGo]
  | cons w ws ih =>
      intro m p hnd hdisj
      have hw : ¬ m.any (fun kv => kv.1 == w) := by
        simp only [List.any_eq_true, not_exists, not_and]
        intro kv hkv
        have := hdisj kv hkv
        simp only [List.mem_cons, not_or] at this
        simp [this.1]
      have hm : mapSet m w p = m ++ [(w, p)] := by simp [mapSet, hw]
      have hnd' := (List.nodup_cons.mp hnd).2
      have hwns := (List.nodup_cons.mp hnd).1
      have hdisj' : ∀ kv ∈ m ++ [(w, p)], kv.1 ∉ ws := by
        intro kv hkv
        rcases List.mem_append.mp hkv with h | h
        · intro hc
          exact hdisj kv h (List.mem_cons_of_mem _ hc)
        · simp only [List.mem_singleton] at h
          subst h
          exact hwns
      have h0 : mapSet ([] : List (String × Nat)) w p = [(w, p)] := by simp [mapSet]
      calc buildPortMapGo m p (w :: ws)
          = buildPortMapGo (m ++ [(w, p)]) (p + 1) ws := by
            rw [buildPortMapGo, hm]
        _ = (m ++ [(w, p)]) ++ buildPortMapGo [] (p + 1) ws := by
            exact ih _ _ hnd' hdisj'
        _ = m ++ ([(w, p)] ++ buildPortMapGo [] (p + 1) ws) := by
            rw [List.append_assoc]
        _ = m ++ buildPortMapGo [(w, p)] (p + 1) ws := by
            rw [ih [(w, p)] (p + 1) hnd' (by
              intro kv hkv
              simp only [List.mem_singleton] at hkv
              subst hkv
              exact hwns)]
        _ = m ++ buildPortMapGo [] p (w :: ws) := by
            rw [buildPortMapGo, h0]

lemma buildPortMap_cons (w : String) (ws : List String) (p : Nat)
    (h : (w :: ws).Nodup) :
    buildPortMap (w :: ws) p = (w, p) :: buildPortMap ws (p + 1) := by
  have h0 : mapSet ([] : List (String × Nat)) w p = [(w, p)] := by simp [mapSet]
  rw [buildPortMap, buildPortMapGo, h0, buildPortMapGo_eq ws [(w, p)] (p + 1)
    (List.nodup_cons.mp h).2
    (by
      intro kv hkv
      simp only [List.mem_singleton] at hkv
      subst hkv
      exact (List.nodup_cons.mp h).1)]
  rfl

lemma buildPortMap_lookup_seq :
    ∀ (ws : List String) (b : Nat), ws.Nodup →
      ∀ (k : Nat) (hk : k < ws.length),
        (buildPortMap ws b).lookup (ws.get ⟨k, hk⟩) = some (b + k) := by
  intro ws
  induction ws with
  | nil => intro b _ k hk; cases hk
  | cons w ws ih =>
      intro b hnd k hk
      rw [buildPortMap_cons w ws b hnd]
      cases k with
      | zero => simp [List.lookup]
      | succ k =>
          have hk' : k < ws.length := by simpa using hk
          have hmem : ws.get ⟨k, hk'⟩ ∈ ws := List.get_mem ws k hk'
          have hne : ws.get ⟨k, hk'⟩ ≠ w := by
            intro hc
            exact (List.nodup_cons.mp hnd).1 (hc ▸ hmem)
          have : (w :: ws).get ⟨k + 1, hk⟩ = ws.get ⟨k, hk'⟩ := rfl
          rw [this, List.lookup, beq_false_of_ne hne]
          simpa [Nat.add_assoc, Nat.add_comm 1 k] using ih (b + 1) (List.nodup_cons.mp hnd).2 k hk'

/-- Invariant of the watcher guard: exactly one rebuild body runs while the
flag is set, none otherwise. -/
def WatchInv (s : WatchState) : Prop :=
  s.active = if s.inFlight then 1 else 0

lemma watchInv_step (s : WatchState) (e : WatchEvent) :
    WatchInv s → WatchInv (watchStep s e) := by
  intro h
  cases e with
  | fileChange =>
      by_cases hf : s.inFlight <;> simp_all [watchStep, WatchInv]
  | configChange =>
      by_cases hf : s.inFlight <;> simp_all [watchStep, WatchInv]
  | rebuildDone =>
      by_cases hf : s.inFlight <;> simp_all [watchStep, WatchInv]

lemma watchInv_foldl (evs : List WatchEvent) :
    ∀ s : WatchState, WatchInv s → WatchInv (evs.foldl watchStep s) := by
  induction evs with
  | nil => intro s h; exact h
  | cons e evs ih => intro s h; exact ih _ (watchInv_step s e h)

lemma clearRegistry_eq (r : Registry) : clearRegistry r = createEmptyRegistry := by
  cases r; rfl

-- ============================================================================
-- Claim theorems
-- ============================================================================

/-- C3: `processBindings` dispatches every binding-map entry by shape,
exactly as `specDispatch` (the spec's dispatch rule) classifies it: the
implementation's fold over the binding map equals the entry-wise
spec-side classification merged collection by collection; in particular a
single entry is classified exactly as the spec says (strings are plain
text, a `{type, name, _ref}` value is routed by its type tag — a
namespace-store reference with name `n` yields `kv-n` —, a `{type}` value
without `_ref` is a manual descriptor, and unsupported tags contribute
nothing to any collection). -/
theorem c3_binding_dispatch :
    (∀ bs : List (String × BVal),
       processBindings bs =
         bs.foldl (fun c kv => mergeDB c (specDispatch kv.1 kv.2)) createEmptyCollections) ∧
    (∀ (k : String) (v : BVal), processBindings [(k, v)] = specDispatch k v) := by
  constructor
  · intro bs
    exact processBindings_foldl_merge bs createEmptyCollections
  · intro k v
    show processBindingEntry createEmptyCollections (k, v) = specDispatch k v
    rw [processBindingEntry_eq_merge, mergeDB_empty_left]

/-- C9: a Hyperdrive binding whose reference carries no local connection
string neither fails classification nor the missing-binding build check:
the binding is omitted from every local collection, and the only effect is
a warning naming the binding key. -/
theorem c9_hyperdrive_missing_conn (app : AppMeta) (key n nm : String) :
    processBindings [(key, resolveBSpec app (.hyperdriveRef n none))] =
      { warnings := [hyperdriveWarning key] } ∧
    ContainsStr (hyperdriveWarning key) key ∧
    checkWorkerBindings nm [key] [(key, resolveBSpec app (.hyperdriveRef n none))] = none := by
  refine ⟨rfl, ⟨"Warning: Hyperdrive binding \"",
    "\" missing localConnectionString - binding skipped in dev", rfl⟩, ?_⟩
  simp [checkWorkerBindings, dedupKeys]

/-- C5: the `isRebuilding` reentrancy guard: a change notification (from
either watcher) arriving while a rebuild is in flight leaves the state
exactly unchanged (dropped, not queued), at most one rebuild body is ever
in flight along any event sequence, and two rapid save events while the
first rebuild is still running start exactly one rebuild. -/
theorem c5_reentrancy_guard :
    (∀ a n : Nat,
       watchStep ⟨true, a, n⟩ .fileChange = ⟨true, a, n⟩ ∧
       watchStep ⟨true, a, n⟩ .configChange = ⟨true, a, n⟩) ∧
    (∀ evs : List WatchEvent, (runWatch evs).active ≤ 1) ∧
    runWatch [.fileChange, .fileChange] = ⟨true, 1, 1⟩ := by
  refine ⟨fun a n => ⟨rfl, rfl⟩, ?_, rfl⟩
  intro evs
  have h : WatchInv (runWatch evs) := watchInv_foldl evs watchInit (by simp [WatchInv, watchInit])
  rw [WatchInv] at h
  by_cases hf : (runWatch evs).inFlight <;> simp [hf] at h <;> omega

/-- C6: configuration loading is deterministic and residue-free:
`clearRegistry` resets the app metadata, every per-kind sequence and the
outputs map to their empty defaults, the result of `loadConfig` does not
depend on the registry state left by any previous load, and running the
same configuration at the same stage twice in a row yields identical
registry snapshots. -/
theorem c6_load_deterministic :
    (∀ r : Registry, clearRegistry r = createEmptyRegistry) ∧
    (∀ (r1 r2 : Registry) (p : ConfigProgram) (stage : String),
       loadConfig r1 p stage = loadConfig r2 p stage) ∧
    (∀ (r : Registry) (p : ConfigProgram) (stage : String),
       loadConfig (loadConfig r p stage).1 p stage = loadConfig r p stage) := by
  refine ⟨clearRegistry_eq, ?_, ?_⟩
  · intro r1 r2 p stage
    simp only [loadConfig, clearRegistry_eq]
  · intro r p stage
    simp only [loadConfig, clearRegistry_eq]

/-- C8: a reload/build failure during a watch-triggered rebuild is caught
inside the handler (which returns normally instead of propagating), is
logged, and performs no instance operation at all: the live-instance list
after the failed handler is exactly the previous one, for both the general
source watcher and the configuration watcher. -/
theorem c8_watch_failure_keeps_instances (fn : String) (instances : List InstanceRec)
    (e : JsErr) (fw : Option String) (basePort : Nat) :
    (handleRebuildModel fn instances (.error e)).instances = instances ∧
    (handleRebuildModel fn instances (.error e)).events = [] ∧
    errorLog e ∈ (handleRebuildModel fn instances (.error e)).logs ∧
    (configWatcherModel instances fw basePort (.error e)).instances = instances ∧
    (configWatcherModel instances fw basePort (.error e)).events = [] ∧
    errorLog e ∈ (configWatcherModel instances fw basePort (.error e)).logs := by
  refine ⟨rfl, rfl, ?_, rfl, rfl, ?_⟩ <;> simp [handleRebuildModel, configWatcherModel]

lemma missing_nil_iff (a conf : List String) :
    (dedupKeys a).filter (fun b => !conf.contains b) = [] ↔ ∀ k ∈ a, k ∈ conf := by
  rw [List.filter_eq_nil_iff]
  constructor
  · intro h k hk
    have := h k ((dedupKeys_mem a k).mpr hk)
    simpa using this
  · intro h b hb
    have := h b ((dedupKeys_mem a b).mp hb)
    simpa using this

lemma checkWorkerBindings_none_iff (nm : String) (a : List String)
    (bs : List (String × BVal)) :
    checkWorkerBindings nm a bs = none ↔
      ∀ k ∈ a, k ∈ bs.map (fun kv => kv.1) := by
  rw [checkWorkerBindings]
  by_cases h :
      ((dedupKeys a).filter (fun b => !(bs.map (fun kv => kv.1)).contains b)).isEmpty = true
  · rw [if_pos h]
    simp only [List.isEmpty_iff] at h
    exact iff_of_true rfl ((missing_nil_iff a (bs.map (fun kv => kv.1))).mp h)
  · rw [if_neg h]
    simp only [List.isEmpty_iff] at h
    simp only [reduceCtorEq, false_iff]
    intro hall
    exact h ((missing_nil_iff a (bs.map (fun kv => kv.1))).mpr hall)

/-- C4: the build fails with the `MISSING_BINDINGS` error exactly when some
worker's compiled artifact accesses an env key with no entry in that
worker's binding map; the error names the worker and every missing key;
and a binding-map entry that is never referenced in the compiled code
raises nothing. -/
theorem c4_missing_bindings (workers : List (String × WorkerOpts))
    (acc : String → List String) :
    (buildValidate workers acc = none ↔
       ∀ w ∈ workers, ∀ k ∈ acc w.1, k ∈ w.2.bindings.map (fun kv => kv.1)) ∧
    (∀ (nm : String) (a : List String) (bs : List (String × BVal)) (e : JsErr),
       checkWorkerBindings nm a bs = some e →
       e.name = "LumierError" ∧ e.code = some "MISSING_BINDINGS" ∧
       ContainsStr e.message nm ∧
       ∀ k ∈ a, k ∉ bs.map (fun kv => kv.1) → ContainsStr e.message k) ∧
    (∀ (nm : String) (a : List String) (bs : List (String × BVal)) (kv : String × BVal),
       checkWorkerBindings nm a bs = none → checkWorkerBindings nm a (kv :: bs) = none) := by
  refine ⟨?_, ?_, ?_⟩
  · induction workers with
    | nil => simp [buildValidate]
    | cons w ws ih =>
        rw [buildValidate]
        cases hc : checkWorkerBindings w.1 (acc w.1) w.2.bindings with
        | some e =>
            simp only [reduceCtorEq, false_iff]
            intro hall
            have : checkWorkerBindings w.1 (acc w.1) w.2.bindings = none :=
              (checkWorkerBindings_none_iff _ _ _).mpr (hall w (List.mem_cons_self w ws))
            rw [this] at hc
            cases hc
        | none =>
            rw [ih]
            constructor
            · intro h w' hw'
              rcases List.mem_cons.mp hw' with rfl | hmem
              · exact (checkWorkerBindings_none_iff _ _ _).mp hc
              · exact h w' hmem
            · intro h w' hw'
              exact h w' (List.mem_cons_of_mem _ hw')
  · intro nm a bs e he
    rw [checkWorkerBindings] at he
    by_cases h :
        ((dedupKeys a).filter (fun b => !(bs.map (fun kv => kv.1)).contains b)).isEmpty = true
    · rw [if_pos h] at he
      cases he
    · rw [if_neg h] at he
      have he' := (Option.some.injEq _ _).mp he
      subst he'
      refine ⟨rfl, rfl, ?_, ?_⟩
      · exact containsStr_of_append_right _ (containsStr_of_append_right _
          (containsStr_of_append_right _
            (containsStr_of_append_left _ (containsStr_self nm))))
      · intro k hk hnk
        have hmiss : k ∈ (dedupKeys a).filter
            (fun b => !(bs.map (fun kv => kv.1)).contains b) := by
          rw [List.mem_filter]
          refine ⟨(dedupKeys_mem a k).mpr hk, ?_⟩
          simpa using hnk
        exact containsStr_of_append_right _
          (containsStr_of_append_left _ (joinComma_contains _ k hmiss))
  · intro nm a bs kv hnone
    rw [checkWorkerBindings_none_iff] at hnone ⊢
    intro k hk
    exact List.mem_cons_of_mem _ (hnone k hk)

/-- Concrete workers for the C4 witness: `api` accesses `DB` and `CACHE`
but only declares `DB`. -/
def c4errWorkers : List (String × WorkerOpts) :=
  [("api", { entry := "src/api.ts", bindings := [("DB", .str "x")] })]

/-- Artifact env accesses for the failing C4 scenario. -/
def c4accesses : String → List String :=
  fun n => if n == "api" then ["DB", "CACHE"] else []

/-- Concrete workers for the passing C4 scenario: `UNUSED` is declared but
never referenced. -/
def c4okWorkers : List (String × WorkerOpts) :=
  [("api", { entry := "src/api.ts", bindings := [("DB", .str "x"), ("UNUSED", .str "y")] })]

/-- Artifact env accesses for the passing C4 scenario. -/
def c4okAccesses : String → List String :=
  fun n => if n == "api" then ["DB"] else []

/-- The error thrown in the failing C4 scenario. -/
def c4err : JsErr :=
  { name := "LumierError", code := some "MISSING_BINDINGS"
    message := "Worker \"api\" uses bindings that are not configured: CACHE\nAdd them to the worker's bindings in lumier.config.ts" }

theorem c4_missing_bindings_witness :
    ContainsStr c4err.message "api" ∧ ContainsStr c4err.message "CACHE" ∧
    buildValidate c4okWorkers c4okAccesses = none ∧
    buildValidate c4errWorkers c4accesses = some c4err := by
  have hbad := (c4_missing_bindings c4errWorkers c4accesses).2.1 "api" ["DB", "CACHE"]
    [("DB", .str "x")] c4err (by decide)
  refine ⟨hbad.2.2.1, hbad.2.2.2 "CACHE" (by decide) (by decide), ?_, by decide⟩
  exact ((c4_missing_bindings c4okWorkers c4okAccesses).1).mpr (by decide)

/-- C7 counterexample: the claim fails as stated, in two ways. The name
`" cache "` fails the claimed identifier pattern (it is not letter-led),
yet `KV(" cache ")` does not throw at all, because zod validates the
trimmed string; and for a name that genuinely fails validation
(`"1bad"`), the declaration function throws a plain `Error`
(`validateName` in `sdk/config.ts` uses `new Error(...)`), not a
`ValidationError`. -/
theorem c7_counterexample :
    namePatternOk " cache " = false ∧
    (interpDecl createEmptyRegistry (.kv " cache ")).2 = none ∧
    ((interpDecl createEmptyRegistry (.kv "1bad")).2).map JsErr.name = some "Error" ∧
    (mkValidationError "m").name = "ValidationError" := by
  exact ⟨by decide, by decide, by decide, rfl⟩

/-- C7 (amended): for every declaration function and every name whose
*trimmed* form fails validation (empty, longer than 63 characters, or
failing the letter-led alphanumeric/hyphen pattern), the call throws
synchronously a plain `Error` (not the CLI `ValidationError` class) whose
message names the offending resource kind, the given name and the rule
violated, and the registry is left exactly unchanged by the failed call
(the entry is never appended). -/
theorem c7_decl_validation_error (reg : Registry) (d : Decl) (m : String)
    (h : resourceNameCheck d.declName = some m) :
    interpDecl reg d =
      (reg, some { name := "Error", code := none,
                   message := d.declKind ++ " \"" ++ d.declName ++ "\": " ++ m }) ∧
    ContainsStr (d.declKind ++ " \"" ++ d.declName ++ "\": " ++ m) d.declName ∧
    ContainsStr (d.declKind ++ " \"" ++ d.declName ++ "\": " ++ m) m := by
  refine ⟨?_, ?_, ?_⟩
  · rw [interpDecl, validateName, h]
    rfl
  · exact containsStr_of_append_right _ (containsStr_of_append_right _
      (containsStr_of_append_left _ (containsStr_self d.declName)))
  · exact containsStr_of_append_left _ (containsStr_self m)

/-- The rule message reported for a name that fails the identifier regex. -/
def patternRuleMsg : String :=
  "Resource name must start with a letter and contain only alphanumeric characters and hyphens"

theorem c7_decl_validation_error_witness :
    interpDecl createEmptyRegistry (.kv "1bad") =
      (createEmptyRegistry,
        some { name := "Error", code := none
               message := "KV" ++ " \"" ++ "1bad" ++ "\": " ++ patternRuleMsg }) ∧
    ContainsStr ("KV" ++ " \"" ++ "1bad" ++ "\": " ++ patternRuleMsg) "1bad" ∧
    ContainsStr ("KV" ++ " \"" ++ "1bad" ++ "\": " ++ patternRuleMsg) patternRuleMsg := by
  exact c7_decl_validation_error createEmptyRegistry (.kv "1bad") patternRuleMsg (by decide)

/-- The names held in the registry, across every resource kind. -/
def allNames (r : Registry) : List String :=
  r.workers.map (fun w => w.1) ++ r.buckets ++ r.kvs ++ r.d1s ++ r.queues ++
    r.vectorizes ++ r.durableObjects.map (fun d => d.1) ++ r.crons.map (fun c => c.1) ++
    r.staticSites ++ r.hyperdrives.map (fun h => h.1) ++ r.analyticsEngines

/-- C10: a name whose trimmed form passes validation is accepted by every
declaration function — so a pattern-valid identifier surrounded by
whitespace is accepted, since zod validates the trimmed string — but the
original untrimmed name is what gets appended to the registry and what is
embedded in the synthesized reference identifier: `KV(" cache ")` succeeds,
registers the name `" cache "` (not `"cache"`), and returns namespace id
`"kv- cache "` (not `"kv-cache"`). -/
theorem c10_untrimmed_name_kept :
    (∀ (reg : Registry) (d : Decl), resourceNameCheck d.declName = none →
       (interpDecl reg d).2 = none ∧ (interpDecl reg d).1 = applyDecl reg d ∧
       (allNames (interpDecl reg d).1).count d.declName =
         (allNames reg).count d.declName + (if d.isExisting then 0 else 1)) ∧
    (∀ (reg : Registry) (nm : String), resourceNameCheck nm = none →
       (interpDecl reg (.kv nm)).1.kvs = reg.kvs ++ [nm]) ∧
    namePatternOk " cache " = false ∧
    resourceNameCheck " cache " = none ∧
    (interpDecl createEmptyRegistry (.kv " cache ")).1.kvs = [" cache "] ∧
    mkKVNamespaceId " cache " = "kv- cache " := by
  have hclear : ∀ (reg : Registry) (d : Decl), resourceNameCheck d.declName = none →
      interpDecl reg d = (applyDecl reg d, none) := by
    intro reg d h
    rw [interpDecl, validateName, h]
    rfl
  refine ⟨?_, ?_, by decide, by decide, by decide, by decide⟩
  · intro reg d h
    rw [hclear reg d h]
    refine ⟨rfl, rfl, ?_⟩
    cases d <;>
      simp [applyDecl, allNames, Decl.declName, Decl.isExisting, List.count_append] <;>
      omega
  · intro reg nm h
    rw [hclear reg (.kv nm) h]
    rfl

theorem c10_untrimmed_name_kept_witness :
    (interpDecl createEmptyRegistry (.kv " cache ")).2 = none ∧
    (interpDecl createEmptyRegistry (.bucket "uploads")).1 =
      applyDecl createEmptyRegistry (.bucket "uploads") := by
  exact ⟨(c10_untrimmed_name_kept.1 createEmptyRegistry (.kv " cache ") (by decide)).1,
    (c10_untrimmed_name_kept.1 createEmptyRegistry (.bucket "uploads") (by decide)).2.1⟩

-- ============================================================================
-- C1: service-binding round trip (failing input)
-- ============================================================================

/-- Port map of a successful startup (empty on the error path). -/
def exceptPortMap (x : Except JsErr (List (String × Nat) × List MfWorkerConfig)) :
    List (String × Nat) :=
  match x with
  | .ok v => v.1
  | .error _ => []

/-- Per-worker configurations of a successful startup. -/
def exceptConfigs (x : Except JsErr (List (String × Nat) × List MfWorkerConfig)) :
    List MfWorkerConfig :=
  match x with
  | .ok v => v.2
  | .error _ => []

/-- The C1 scenario: app `app`, two workers `a` and `b`, where `b`'s
binding map contains the service binding `SVC` to `a`'s reference. -/
def progC1 : ConfigProgram :=
  { appName := "app"
    decls := fun _ =>
      [.worker "a" "src/a.ts" [],
       .worker "b" "src/b.ts" [("SVC", .workerRef "a")]] }

/-- The registry produced by loading the C1 scenario at stage `dev`. -/
def regC1 : Registry := (loadConfig createEmptyRegistry progC1 "dev").1

/-- C1 (failing input): load the C1 scenario and start the dev server at
base port 8787. The load succeeds and both workers get sequential ports,
but the reference's script-name identifier (`app-dev-a`) is recorded as
`b`'s service-binding target while the port map is keyed by bare worker
names, so the port-map lookup fails and `b`'s configuration contains no
dispatch function for `SVC` — contradicting the claimed round trip. -/
theorem c1_service_binding_dropped :
    (loadConfig createEmptyRegistry progC1 "dev").2 = none ∧
    regC1.workers.map (fun w => w.1) = ["a", "b"] ∧
    exceptPortMap (devStartup regC1 none 8787 "dev") = [("a", 8787), ("b", 8788)] ∧
    (exceptPortMap (devStartup regC1 none 8787 "dev")).lookup "app-dev-a" = none ∧
    (exceptConfigs (devStartup regC1 none 8787 "dev")).map
        (fun c => c.bindings.serviceBindingTargets) = [[], [("SVC", "app-dev-a")]] ∧
    (exceptConfigs (devStartup regC1 none 8787 "dev")).map
        (fun c => c.serviceBindings) = [[], []] := by
  exact ⟨by decide, by decide, by decide, by decide, by decide, by decide⟩

-- ============================================================================
-- C2: structural vs hot reconfiguration
-- ============================================================================

/-- Two name lists contain the same names (as sets). -/
def sameNameSet (xs ys : List String) : Prop :=
  (∀ n ∈ xs, n ∈ ys) ∧ (∀ n ∈ ys, n ∈ xs)

/-- Whether an instance event disposes an instance. -/
def isDispose : OrchEvent → Bool
  | .dispose _ => true
  | _ => false

/-- Relation `sameNameSet` is a decidable comparison of two concrete name lists. -/
instance sameNameSetDecidable (xs ys : List String) : Decidable (sameNameSet xs ys) := by
  unfold sameNameSet
  infer_instance

lemma filter_length_pos_iff {α : Type} (l : List α) (p : α → Bool) :
    (l.filter p).length > 0 ↔ ∃ a ∈ l, p a := by
  rw [gt_iff_lt, List.length_pos, ne_eq, List.filter_eq_nil_iff]
  push_neg
  simp

lemma structural_cond_iff (instances : List InstanceRec)
    (ws : List (String × WorkerOpts)) :
    ((ws.filter (fun w => !(instances.map (fun i => i.name)).contains w.1)).length > 0 ∨
     (instances.filter (fun i => !(ws.map (fun w => w.1)).contains i.name)).length > 0) ↔
    ¬ sameNameSet (instances.map (fun i => i.name)) (ws.map (fun w => w.1)) := by
  rw [sameNameSet, not_and_or]
  constructor
  · rintro (h | h)
    · right
      rw [filter_length_pos_iff] at h
      obtain ⟨w, hw, hnc⟩ := h
      push_neg
      refine ⟨w.1, List.mem_map_of_mem _ hw, ?_⟩
      simpa using hnc
    · left
      rw [filter_length_pos_iff] at h
      obtain ⟨i, hi, hnc⟩ := h
      push_neg
      refine ⟨i.name, List.mem_map_of_mem _ hi, ?_⟩
      simpa using hnc
  · rintro (h | h)
    · right
      rw [filter_length_pos_iff]
      push_neg at h
      obtain ⟨n, hn, hnn⟩ := h
      obtain ⟨i, hi, rfl⟩ := List.mem_map.mp hn
      exact ⟨i, hi, by simpa using hnn⟩
    · left
      rw [filter_length_pos_iff]
      push_neg at h
      obtain ⟨n, hn, hnn⟩ := h
      obtain ⟨w, hw, rfl⟩ := List.mem_map.mp hn
      exact ⟨w, hw, by simpa using hnn⟩

/-- C2: on a configuration-file change the orchestrator diffs the new
compute-unit name set against the running instance name set: if the name
sets differ, every current instance is disposed and the full new set is
cold-started with fresh sequential ports from the base port; if the name
sets are equal, the instances are kept as they are (same list, same
ports) and no instance is disposed. On a non-configuration source change
(`handleRebuild`), the instance list is untouched and nothing is
disposed. -/
theorem c2_structural_vs_hot (instances : List InstanceRec) (fw : Option String)
    (basePort : Nat) (cfg : Registry) (fn : String) :
    (¬ sameNameSet (instances.map (fun i => i.name))
        ((filteredWorkers fw cfg).map (fun w => w.1)) →
      (∀ i ∈ instances, OrchEvent.dispose i.name ∈
        (configWatcherModel instances fw basePort (.ok cfg)).events) ∧
      (configWatcherModel instances fw basePort (.ok cfg)).instances.map (fun i => i.name) =
        (filteredWorkers fw cfg).map (fun w => w.1) ∧
      (((filteredWorkers fw cfg).map (fun w => w.1)).Nodup →
        ∀ (k : Nat)
          (hk : k < (configWatcherModel instances fw basePort (.ok cfg)).instances.length),
          ((configWatcherModel instances fw basePort (.ok cfg)).instances.get ⟨k, hk⟩).port =
            basePort + k)) ∧
    (sameNameSet (instances.map (fun i => i.name))
        ((filteredWorkers fw cfg).map (fun w => w.1)) →
      (configWatcherModel instances fw basePort (.ok cfg)).instances = instances ∧
      ∀ ev ∈ (configWatcherModel instances fw basePort (.ok cfg)).events,
        isDispose ev = false) ∧
    (handleRebuildModel fn instances (.ok cfg)).instances = instances ∧
    (∀ ev ∈ (handleRebuildModel fn instances (.ok cfg)).events, isDispose ev = false) := by
  refine ⟨?_, ?_, rfl, ?_⟩
  · intro hns
    have hcond := (structural_cond_iff instances (filteredWorkers fw cfg)).mpr hns
    rw [configWatcherModel]
    rw [if_pos hcond]
    refine ⟨?_, ?_, ?_⟩
    · intro i hi
      exact List.mem_append.mpr (Or.inl (List.mem_map_of_mem _ hi))
    · simp
    · intro hnd k hk
      have hk' : k < ((filteredWorkers fw cfg).map (fun w => w.1)).length := by
        simpa using hk
      have hlook := buildPortMap_lookup_seq ((filteredWorkers fw cfg).map (fun w => w.1))
        basePort hnd k hk'
      simp only [List.get_eq_getElem, List.getElem_map]
      simp only [List.get_eq_getElem, List.getElem_map] at hlook
      rw [hlook]
      rfl
  · intro hs
    have hcond : ¬ ((((filteredWorkers fw cfg).filter
        (fun w => !(instances.map (fun i => i.name)).contains w.1)).length > 0) ∨
        ((instances.filter
          (fun i => !((filteredWorkers fw cfg).map (fun w => w.1)).contains i.name)).length > 0)) := by
      rw [structural_cond_iff]
      exact not_not_intro hs
    rw [configWatcherModel]
    rw [if_neg hcond]
    refine ⟨rfl, ?_⟩
    intro ev hmem
    obtain ⟨i, _, hev⟩ := List.mem_filterMap.mp hmem
    by_cases hc : (filteredWorkers fw cfg).any (fun w => w.1 == i.name)
    · rw [if_pos hc] at hev
      cases hev
      rfl
    · rw [if_neg hc] at hev
      cases hev
  · intro ev hmem
    rw [handleRebuildModel] at hmem
    obtain ⟨i, _, hev⟩ := List.mem_filterMap.mp hmem
    by_cases hc : cfg.workers.any (fun w => w.1 == i.name)
    · rw [if_pos hc] at hev
      cases hev
      rfl
    · rw [if_neg hc] at hev
      cases hev

/-- Running instances for the C2 witness. -/
def c2instances : List InstanceRec := [{ name := "a", port := 8787 }, { name := "b", port := 8788 }]

/-- New configuration with worker `b` removed (structural change). -/
def c2cfgChanged : Registry :=
  { createEmptyRegistry with workers := [("a", { entry := "src/a.ts", bindings := [] })] }

/-- New configuration with the same worker set (hot update). -/
def c2cfgSame : Registry :=
  { createEmptyRegistry with workers :=
      [("a", { entry := "src/a.ts", bindings := [] }),
       ("b", { entry := "src/b.ts", bindings := [] })] }

theorem c2_structural_vs_hot_witness :
    (configWatcherModel c2instances none 8787 (.ok c2cfgSame)).instances = c2instances ∧
    (configWatcherModel c2instances none 8787 (.ok c2cfgChanged)).instances.map
        (fun i => i.name) = ["a"] ∧
    OrchEvent.dispose "b" ∈
      (configWatcherModel c2instances none 8787 (.ok c2cfgChanged)).events ∧
    (handleRebuildModel "src/a.ts" c2instances (.ok c2cfgSame)).instances = c2instances := by
  have hchanged := c2_structural_vs_hot c2instances none 8787 c2cfgChanged "src/a.ts"
  have hsame := c2_structural_vs_hot c2instances none 8787 c2cfgSame "src/a.ts"
  refine ⟨(hsame.2.1 (by decide)).1, ?_, ?_, hsame.2.2.1⟩
  · exact (hchanged.1 (by decide)).2.1
  · exact (hchanged.1 (by decide)).1 { name := "b", port := 8788 } (by decide)

end Lumier
